import Mathlib

/-!
Shallow embedding of the hybrid retrieval engine of the
recruitment-automation repository (src/retrieval.py, src/build_faiss.py,
src/build_fts.py), together with theorems settling the frozen claims
about its specification.

Scores are Python floats in the source; they are modelled as rationals.
Profiles are Python dicts; they are modelled as a record with optional
fields (a missing dict key is `none`).
-/

namespace RecruitAuto

/-- Relevance scores (Python floats in the source, modelled as rationals). -/
abbrev Score := ℚ

/-- Feature vectors (numpy float arrays in the source). -/
abbrev Vec := List ℚ

/-- A candidate profile record, as loaded from `data/parsed/{cid}.json`.
Optional fields model dict keys that may be absent (`profile.get(...)`).
`search_score` is the field the retrieval code writes into the dict. -/
structure Profile where
  candidate_id : String
  name : Option String := none
  role_category : Option String := none
  experience_years : Option ℚ := none
  location : Option String := none
  work_authorization : Option String := none
  search_score : Score := 0
  deriving Repr, DecidableEq

/-- A filter value as it arrives from the caller: a number or
(wrong-shaped) a string, mirroring untyped JSON/dict values. -/
inductive FilterVal where
  | num (q : ℚ)
  | str (s : String)
  deriving Repr, DecidableEq

/-- The filter mapping accepted by `CandidateRetriever.search`; a `none`
field models an absent dict key. -/
structure Filters where
  role_category : Option String := none
  min_experience : Option FilterVal := none
  max_experience : Option FilterVal := none
  location : Option String := none
  work_authorization : Option String := none
  deriving Repr, DecidableEq

/-- Python runtime errors relevant here. `typeError` is what Python raises
on an unsupported comparison such as `0 < "five"`. `malformedFilter` is
modelled from the spec: the spec postulates a MalformedFilter error class
rejected at the retriever boundary; nothing in src/ defines or raises it,
but the constructor is needed to state that claim. -/
inductive PyError where
  | typeError (msg : String)
  | malformedFilter (msg : String)
  deriving Repr, DecidableEq

/-- Python substring containment `needle in hay` on strings. -/
def strContains (hay needle : String) : Bool :=
  hay.toList.tails.any (fun t => needle.toList.isPrefixOf t)

/-- Embeds `CandidateRetriever.matches_filters` (src/retrieval.py lines
104-121): a sequence of early-return checks.  The checks run in source
order; a `str` experience bound reaching a `<`/`>` comparison raises a
TypeError exactly as Python does.  Split into one definition per check to
mirror the early returns. -/
def checkWorkAuth (profile : Profile) (filters : Filters) : Except PyError Bool :=
  match filters.work_authorization with
  | some wa => if profile.work_authorization = some wa then .ok true else .ok false
  | none => .ok true

/-- The `location` check of `matches_filters`: case-insensitive substring
match of the filter value in the profile location (absent location reads
as the empty string, per `profile.get('location') or ''`). -/
def checkLocation (profile : Profile) (filters : Filters) : Except PyError Bool :=
  match filters.location with
  | some lq =>
      if strContains ((profile.location.getD "").toLower) lq.toLower then
        checkWorkAuth profile filters
      else .ok false
  | none => checkWorkAuth profile filters

/-- The `max_experience` check: `profile.get('experience_years', 0) >
filters['max_experience']`, raising TypeError on a string bound. -/
def checkMaxExp (profile : Profile) (filters : Filters) : Except PyError Bool :=
  match filters.max_experience with
  | some (.num q) =>
      if profile.experience_years.getD 0 > q then .ok false
      else checkLocation profile filters
  | some (.str _) => .error (.typeError "unsupported comparison between int and str")
  | none => checkLocation profile filters

/-- The `min_experience` check: `profile.get('experience_years', 0) <
filters['min_experience']`, raising TypeError on a string bound. -/
def checkMinExp (profile : Profile) (filters : Filters) : Except PyError Bool :=
  match filters.min_experience with
  | some (.num q) =>
      if profile.experience_years.getD 0 < q then .ok false
      else checkMaxExp profile filters
  | some (.str _) => .error (.typeError "unsupported comparison between int and str")
  | none => checkMaxExp profile filters

/-- Embeds `matches_filters` itself, starting with the `role_category`
check (`profile.get('role_category') != filters['role_category']`): a
profile with no role field compares as None and so fails the check. -/
def matchesFilters (profile : Profile) (filters : Filters) : Except PyError Bool :=
  match filters.role_category with
  | some rc =>
      if profile.role_category = some rc then checkMinExp profile filters
      else .ok false
  | none => checkMinExp profile filters

/-- The FAISS index artifact: an abstract top-k inner-product search
returning (distance, row) pairs for a query vector. -/
structure FaissIndex where
  run : Vec → Nat → List (Score × Nat)

/-- The persisted TF-IDF vectorizer: projects text into the vector space. -/
structure Vectorizer where
  transform : String → Vec

/-- The SQLite FTS5 artifact `meta.sqlite`: `matchRows q` is the sequence
of candidate_id values produced by `profiles_fts MATCH q` in relevance
order (the `LIMIT k` is applied by the caller via `take`). -/
structure KeywordDb where
  matchRows : String → List String

/-- The state a `CandidateRetriever` holds after `load_indexes`:
`faiss` pairs the loaded index with the `candidate_ids` list of
`meta.json` (both are loaded together or not at all); `profiles` is
`load_profile` over `data/parsed/{cid}.json`; `normalizeL2` abstracts
`faiss.normalize_L2` on a query vector (its numeric content is
irrational and irrelevant to the claims). -/
structure RetrieverState where
  faiss : Option (FaissIndex × List String)
  vectorizer : Option Vectorizer
  keywordDb : Option KeywordDb
  profiles : String → Option Profile
  normalizeL2 : Vec → Vec

/-- Embeds `CandidateRetriever.semantic_search` (lines 40-55): absent
index or vectorizer degrade to no results; otherwise each hit row within
bounds is hydrated from the profile store and stamped with its distance
as `search_score`. -/
def semanticSearch (st : RetrieverState) (query : String) (k : Nat) : List Profile :=
  match st.faiss, st.vectorizer with
  | some (idx, cids), some vz =>
      let hits := idx.run (st.normalizeL2 (vz.transform query)) (min k cids.length)
      hits.filterMap (fun h =>
        if hlt : h.2 < cids.length then
          (st.profiles (cids.get ⟨h.2, hlt⟩)).map
            (fun p => { p with search_score := h.1 })
        else none)
  | _, _ => []

/-- Embeds `CandidateRetriever.keyword_search` (lines 57-78): absent
database degrades to no results; otherwise the first `k` FTS matches are
hydrated and stamped with the fixed score 0.5. -/
def keywordSearch (st : RetrieverState) (query : String) (k : Nat) : List Profile :=
  match st.keywordDb with
  | some db =>
      ((db.matchRows query).take k).filterMap (fun cid =>
        (st.profiles cid).map (fun p => { p with search_score := 1/2 }))
  | none => []

/-- Python dict assignment `d[key] = v` on an insertion-ordered dict:
replace in place when the key exists, append otherwise. -/
def dictSet (d : List (String × Profile)) (key : String) (v : Profile) :
    List (String × Profile) :=
  match d with
  | [] => [(key, v)]
  | (k0, v0) :: rest =>
      if k0 = key then (key, v) :: rest else (k0, v0) :: dictSet rest key v

/-- Python dict lookup `d[key]` / `key in d`. -/
def dictLookup (d : List (String × Profile)) (key : String) : Option Profile :=
  match d with
  | [] => none
  | (k0, v0) :: rest => if k0 = key then some v0 else dictLookup rest key

/-- The seeding loop of `search` (lines 86-87): `combined[cid] = profile`
for every semantic result. -/
def semDict (semanticResults : List Profile) : List (String × Profile) :=
  semanticResults.foldl (fun d p => dictSet d p.candidate_id p) []

/-- One iteration of the keyword-fusion loop of `search` (lines 88-93):
an already-present candidate gets score
`max(existing, keyword_score + 0.2)`; a new one is inserted as is. -/
def fuseKeywordHit (d : List (String × Profile)) (p : Profile) :
    List (String × Profile) :=
  match dictLookup d p.candidate_id with
  | some old =>
      dictSet d p.candidate_id
        { old with search_score := max old.search_score (p.search_score + 1/5) }
  | none => dictSet d p.candidate_id p

/-- The full score-fusion step of `search` (lines 85-93): seed with the
vector results, then fold the keyword results in. -/
def fuse (semanticResults keywordResults : List Profile) :
    List (String × Profile) :=
  keywordResults.foldl fuseKeywordHit (semDict semanticResults)

/-- Stable descending insertion by `search_score`: the new element goes
before the first element whose score is less than or equal to its own, so
an element inserted earlier in original order keeps precedence on ties. -/
def insertByScore (p : Profile) : List Profile → List Profile
  | [] => [p]
  | q :: rest =>
      if q.search_score ≤ p.search_score then p :: q :: rest
      else q :: insertByScore p rest

/-- Embeds `results.sort(key=lambda x: x.get('search_score', 0),
reverse=True)` (line 95): Python list.sort is a stable sort, and with
`reverse=True` it is the stable descending sort by score; every profile in
`results` carries a `search_score`, so the `get` default never fires. -/
def sortByScoreDesc (l : List Profile) : List Profile :=
  l.foldr insertByScore []

/-- Descending order on profiles by `search_score`: `ScoreGE a b` says `a`
scores at least as high as `b`, the order in which `search` returns
profiles. -/
def ScoreGE (a b : Profile) : Prop := b.search_score ≤ a.search_score

/-- The filtering loop of `search` (lines 96-101): keep profiles passing
`matches_filters`, in order; a TypeError raised mid-loop aborts the call. -/
def applyFilters (filters : Filters) : List Profile → Except PyError (List Profile)
  | [] => .ok []
  | p :: rest =>
      match matchesFilters p filters with
      | .error e => .error e
      | .ok true =>
          match applyFilters filters rest with
          | .error e => .error e
          | .ok l => .ok (p :: l)
      | .ok false => applyFilters filters rest

/-- The fuse-sort-filter-truncate core of `search` (lines 85-102),
factored over the two signal result lists. -/
def searchCombine (semanticResults keywordResults : List Profile) (k : Nat)
    (filters : Option Filters) : Except PyError (List Profile) :=
  let results := (fuse semanticResults keywordResults).map Prod.snd
  let sorted := sortByScoreDesc results
  match filters with
  | none => .ok (sorted.take k)
  | some f =>
      match applyFilters f sorted with
      | .error e => .error e
      | .ok filtered => .ok (filtered.take k)

/-- Embeds `CandidateRetriever.search` (lines 80-102): empty query short
circuits; otherwise the vector signal is asked for `2*k` and the keyword
signal for `k` candidates, and the results are fused, sorted, filtered
and truncated. -/
def search (st : RetrieverState) (query : String) (k : Nat)
    (filters : Option Filters) : Except PyError (List Profile) :=
  if query = "" then .ok []
  else searchCombine (semanticSearch st query (k*2)) (keywordSearch st query k) k filters

/-- The same fusion steps applied in the opposite order, following the
spec sentence comparing keyword-then-vector with vector-then-keyword
fusion: seed the mapping with the keyword results, then fold the vector
results in with the same bonus rule.  This definition follows the spec
words; the source only ever runs `fuse`. -/
def fuseSwapped (semanticResults keywordResults : List Profile) :
    List (String × Profile) :=
  semanticResults.foldl fuseKeywordHit
    (keywordResults.foldl (fun d p => dictSet d p.candidate_id p) [])

/-- The collection loop of src/build_faiss.py (lines 13-19): one pass over
the sorted `.npy` files, appending each embedding and its file stem (the
candidate_id) to two parallel lists. -/
def collectEmbeddings : List (String × Vec) → List Vec × List String
  | [] => ([], [])
  | (cid, emb) :: rest =>
      let r := collectEmbeddings rest
      (emb :: r.1, cid :: r.2)

/-- The index-building step of src/build_faiss.py (lines 21-31): the
stacked embeddings are row-normalized (`faiss.normalize_L2`, abstracted as
`normalizeRow` since its numeric content is irrational) and added to a
flat inner-product index, whose rows these become; the parallel
candidate_ids list is persisted to meta.json.  The result is (index rows,
candidate_ids). -/
def buildFaissIndex (normalizeRow : Vec → Vec) (files : List (String × Vec)) :
    List Vec × List String :=
  let c := collectEmbeddings files
  (c.1.map normalizeRow, c.2)

/-- Filesystem and database operations a build script performs, for
stating which paths a rebuild touches. -/
inductive FsOp where
  | writeFile (path : String)
  | renameFile (src dst : String)
  | sqliteConnect (path : String)
  | dropTable (table : String)
  | createTable (table : String)
  | insertRow (table : String)
  | commit
  deriving Repr, DecidableEq

/-- Whether an operation is a file rename. -/
def FsOp.isRename : FsOp → Bool
  | .renameFile _ _ => true
  | _ => false

/-- The sequence of artifact-touching operations src/build_faiss.py
performs (lines 21-31): when any embeddings were found, it writes the
index at its live path `data/index/faiss.index` and the id list at its
live path `data/index/meta.json`; no other artifact operation occurs. -/
def buildFaissTrace (files : List (String × Vec)) : List FsOp :=
  if files.isEmpty then []
  else [.writeFile "data/index/faiss.index", .writeFile "data/index/meta.json"]

/-- The sequence of operations `build_text_index` in src/build_fts.py
performs (lines 10-62): it connects to the live database path, drops and
recreates the FTS table in place, then (when profile files exist) inserts
one row per file and commits; with no files it returns before inserting
or committing. -/
def buildTextIndexTrace (jsonFiles : List String) : List FsOp :=
  [.sqliteConnect "data/index/meta.sqlite", .dropTable "profiles_fts",
   .createTable "profiles_fts"]
  ++ (if jsonFiles.isEmpty then []
      else jsonFiles.map (fun _ => FsOp.insertRow "profiles_fts") ++ [.commit])

/-! ### Dictionary lemmas -/

theorem dictLookup_dictSet (d : List (String × Profile)) (key : String)
    (v : Profile) (key' : String) :
    dictLookup (dictSet d key v) key'
      = if key' = key then some v else dictLookup d key' := by
  induction d with
  | nil =>
      by_cases h : key = key'
      · subst h
        simp [dictSet, dictLookup]
      · simp [dictSet, dictLookup, h, Ne.symm h]
  | cons kv rest ih =>
      obtain ⟨k0, v0⟩ := kv
      by_cases h0 : k0 = key
      · subst h0
        by_cases h' : k0 = key'
        · subst h'
          simp [dictSet, dictLookup]
        · simp [dictSet, dictLookup, h', Ne.symm h']
      · by_cases h' : k0 = key'
        · subst h'
          simp [dictSet, dictLookup, h0, Ne.symm h0]
        · simp [dictSet, dictLookup, h0, h', ih]

theorem dictLookup_mem (d : List (String × Profile)) (key : String)
    (v : Profile) (h : dictLookup d key = some v) : (key, v) ∈ d := by
  induction d with
  | nil => simp [dictLookup] at h
  | cons kv rest ih =>
      obtain ⟨k0, v0⟩ := kv
      by_cases h0 : k0 = key
      · subst h0
        rw [show dictLookup ((k0, v0) :: rest) k0 = some v0 from by simp [dictLookup]] at h
        injection h with h
        subst h
        exact List.mem_cons_self _ _
      · rw [show dictLookup ((k0, v0) :: rest) key = dictLookup rest key from by
            simp [dictLookup, h0]] at h
        exact List.mem_cons_of_mem _ (ih h)

theorem map_fst_dictSet (d : List (String × Profile)) (key : String) (v : Profile) :
    (dictSet d key v).map Prod.fst
      = if key ∈ d.map Prod.fst then d.map Prod.fst
        else d.map Prod.fst ++ [key] := by
  induction d with
  | nil => simp [dictSet]
  | cons kv rest ih =>
      obtain ⟨k0, v0⟩ := kv
      by_cases h0 : k0 = key
      · subst h0
        simp [dictSet]
      · by_cases hm : key ∈ rest.map Prod.fst
        · simp [dictSet, h0, ih, hm, Ne.symm h0]
        · simp [dictSet, h0, ih, hm, Ne.symm h0]

theorem mem_dictSet (d : List (String × Profile)) (key : String)
    (v : Profile) (kv : String × Profile) (h : kv ∈ dictSet d key v) :
    kv ∈ d ∨ kv = (key, v) := by
  induction d with
  | nil => simpa [dictSet] using h
  | cons kv0 rest ih =>
      obtain ⟨k0, v0⟩ := kv0
      by_cases h0 : k0 = key
      · subst h0
        rw [show dictSet ((k0, v0) :: rest) k0 v = (k0, v) :: rest from by
            simp [dictSet]] at h
        rcases List.mem_cons.mp h with h' | h'
        · exact Or.inr h'
        · exact Or.inl (List.mem_cons_of_mem _ h')
      · rw [show dictSet ((k0, v0) :: rest) key v = (k0, v0) :: dictSet rest key v from by
            simp [dictSet, h0]] at h
        rcases List.mem_cons.mp h with h' | h'
        · exact Or.inl (by rw [h']; exact List.mem_cons_self _ _)
        · rcases ih h' with h'' | h''
          · exact Or.inl (List.mem_cons_of_mem _ h'')
          · exact Or.inr h''

theorem nodup_fst_dictSet (d : List (String × Profile)) (key : String)
    (v : Profile) (h : (d.map Prod.fst).Nodup) :
    ((dictSet d key v).map Prod.fst).Nodup := by
  rw [map_fst_dictSet]
  by_cases hm : key ∈ d.map Prod.fst
  · simpa [hm] using h
  · simp only [hm, if_false]
    refine List.Nodup.append h (List.nodup_singleton key) ?_
    intro x hx hk
    rw [List.mem_singleton] at hk
    subst hk
    exact hm hx

/-! ### Fusion lemmas -/

theorem dictLookup_fuseKeywordHit (d : List (String × Profile)) (p : Profile)
    (key : String) :
    dictLookup (fuseKeywordHit d p) key
      = if key = p.candidate_id then
          match dictLookup d p.candidate_id with
          | some old =>
              some { old with
                      search_score := max old.search_score (p.search_score + 1/5) }
          | none => some p
        else dictLookup d key := by
  unfold fuseKeywordHit
  cases hl : dictLookup d p.candidate_id with
  | some old => rw [dictLookup_dictSet]
  | none => rw [dictLookup_dictSet]

theorem dictLookup_foldl_fuse_not_mem (kw : List Profile)
    (d : List (String × Profile)) (key : String)
    (h : key ∉ kw.map Profile.candidate_id) :
    dictLookup (kw.foldl fuseKeywordHit d) key = dictLookup d key := by
  induction kw generalizing d with
  | nil => rfl
  | cons q rest ih =>
      simp only [List.map_cons, List.mem_cons] at h
      push_neg at h
      rw [List.foldl_cons, ih _ h.2, dictLookup_fuseKeywordHit, if_neg h.1]

theorem dictLookup_foldl_fuse_some (kw : List Profile)
    (d : List (String × Profile)) (key : String) (old : Profile)
    (hs : ∀ p ∈ kw, p.search_score = 1/2)
    (h : dictLookup d key = some old) :
    dictLookup (kw.foldl fuseKeywordHit d) key
      = some (if key ∈ kw.map Profile.candidate_id
              then { old with search_score := max old.search_score (1/2 + 1/5) }
              else old) := by
  induction kw generalizing d old with
  | nil => simpa using h
  | cons q rest ih =>
      rw [List.foldl_cons]
      by_cases hq : key = q.candidate_id
      · have hq' : dictLookup (fuseKeywordHit d q) key
            = some { old with search_score := max old.search_score (1/2 + 1/5) } := by
          rw [dictLookup_fuseKeywordHit, if_pos hq, ← hq, h,
              hs q (List.mem_cons_self _ _)]
        rw [ih _ _ (fun p hp => hs p (List.mem_cons_of_mem _ hp)) hq']
        by_cases hr : key ∈ rest.map Profile.candidate_id
        · simp [hr, hq, max_assoc]
        · simp [hr, hq]
      · have hq' : dictLookup (fuseKeywordHit d q) key = some old := by
          rw [dictLookup_fuseKeywordHit, if_neg hq, h]
        rw [ih _ _ (fun p hp => hs p (List.mem_cons_of_mem _ hp)) hq']
        by_cases hr : key ∈ rest.map Profile.candidate_id
        · simp [hr, hq]
        · simp [hr, hq]

theorem dictLookup_foldl_fuse_new (kw : List Profile)
    (d : List (String × Profile)) (key : String)
    (hs : ∀ p ∈ kw, p.search_score = 1/2)
    (hnd : (kw.map Profile.candidate_id).Nodup)
    (h : dictLookup d key = none)
    (hmem : key ∈ kw.map Profile.candidate_id) :
    (dictLookup (kw.foldl fuseKeywordHit d) key).map Profile.search_score
      = some (1/2) := by
  induction kw generalizing d with
  | nil => simp at hmem
  | cons q rest ih =>
      simp only [List.map_cons, List.nodup_cons] at hnd
      rw [List.foldl_cons]
      by_cases hq : key = q.candidate_id
      · have hq' : dictLookup (fuseKeywordHit d q) key = some q := by
          rw [dictLookup_fuseKeywordHit, if_pos hq, ← hq, h]
        have hrest : key ∉ rest.map Profile.candidate_id := by
          rw [hq]; exact hnd.1
        rw [dictLookup_foldl_fuse_not_mem rest _ key hrest, hq']
        simp [hs q (List.mem_cons_self _ _)]
      · have hq' : dictLookup (fuseKeywordHit d q) key = none := by
          rw [dictLookup_fuseKeywordHit, if_neg hq, h]
        have hmem' : key ∈ rest.map Profile.candidate_id := by
          simp only [List.map_cons, List.mem_cons] at hmem
          rcases hmem with h' | h'
          · exact absurd h' hq
          · exact h'
        exact ih _ (fun p hp => hs p (List.mem_cons_of_mem _ hp)) hnd.2 hq' hmem'

theorem dictLookup_foldl_dictSet_isSome (l : List Profile)
    (d : List (String × Profile)) (key : String) :
    (dictLookup (l.foldl (fun d p => dictSet d p.candidate_id p) d) key).isSome
      ↔ ((dictLookup d key).isSome = true ∨ key ∈ l.map Profile.candidate_id) := by
  induction l generalizing d with
  | nil => simp
  | cons q rest ih =>
      rw [List.foldl_cons, ih]
      by_cases hq : key = q.candidate_id
      · simp [dictLookup_dictSet, hq]
      · simp [dictLookup_dictSet, hq]

theorem dictLookup_foldl_fuse_isSome (l : List Profile)
    (d : List (String × Profile)) (key : String) :
    (dictLookup (l.foldl fuseKeywordHit d) key).isSome
      ↔ ((dictLookup d key).isSome = true ∨ key ∈ l.map Profile.candidate_id) := by
  induction l generalizing d with
  | nil => simp
  | cons q rest ih =>
      rw [List.foldl_cons, ih]
      by_cases hq : key = q.candidate_id
      · have hsome : (dictLookup (fuseKeywordHit d q) key).isSome = true := by
          rw [dictLookup_fuseKeywordHit, if_pos hq]
          cases dictLookup d q.candidate_id <;> rfl
        simp only [hsome, true_or, true_iff]
        refine Or.inr ?_
        rw [hq, List.map_cons]
        exact List.mem_cons_self _ _
      · rw [dictLookup_fuseKeywordHit, if_neg hq]
        simp [hq]

theorem perm_insertByScore (p : Profile) (l : List Profile) :
    List.Perm (insertByScore p l) (p :: l) := by
  induction l with
  | nil => exact List.Perm.refl _
  | cons q rest ih =>
      by_cases h : q.search_score ≤ p.search_score
      · rw [insertByScore, if_pos h]
      · rw [insertByScore, if_neg h]
        exact List.Perm.trans (ih.cons q) (List.Perm.swap p q rest)

theorem perm_sortByScoreDesc (l : List Profile) :
    List.Perm (sortByScoreDesc l) l := by
  induction l with
  | nil => exact List.Perm.refl _
  | cons p rest ih => exact List.Perm.trans (perm_insertByScore p _) (ih.cons p)

theorem sorted_insertByScore (p : Profile) (l : List Profile)
    (h : l.Sorted ScoreGE) : (insertByScore p l).Sorted ScoreGE := by
  induction l with
  | nil => simp [insertByScore, List.Sorted]
  | cons q rest ih =>
      rw [List.sorted_cons] at h
      by_cases hq : q.search_score ≤ p.search_score
      · rw [insertByScore, if_pos hq]
        refine List.sorted_cons.mpr ⟨?_, List.sorted_cons.mpr h⟩
        intro b hb
        rcases List.mem_cons.mp hb with hb | hb
        · rw [hb]; exact hq
        · exact le_trans (h.1 b hb) hq
      · rw [insertByScore, if_neg hq]
        refine List.sorted_cons.mpr ⟨?_, ih h.2⟩
        intro b hb
        rcases List.mem_cons.mp ((perm_insertByScore p rest).mem_iff.mp hb) with hb' | hb'
        · rw [hb']; exact le_of_lt (lt_of_not_le hq)
        · exact h.1 b hb'

theorem sorted_sortByScoreDesc (l : List Profile) :
    (sortByScoreDesc l).Sorted ScoreGE := by
  induction l with
  | nil => simp [sortByScoreDesc, List.Sorted]
  | cons p rest ih => exact sorted_insertByScore p _ ih

theorem filter_insertByScore (x : ℚ) (p : Profile) (l : List Profile) :
    (insertByScore p l).filter (fun q => decide (q.search_score = x))
      = if p.search_score = x
        then p :: l.filter (fun q => decide (q.search_score = x))
        else l.filter (fun q => decide (q.search_score = x)) := by
  induction l with
  | nil =>
      by_cases h : p.search_score = x <;> simp [insertByScore, h]
  | cons q rest ih =>
      by_cases hq : q.search_score ≤ p.search_score
      · rw [insertByScore, if_pos hq]
        by_cases h : p.search_score = x <;> simp [List.filter_cons, h]
      · rw [insertByScore, if_neg hq]
        by_cases h : p.search_score = x
        · have hqx : ¬ q.search_score = x := by
            intro hqx
            exact hq (le_of_eq (hqx.trans h.symm))
          simp [List.filter_cons, hqx, ih, h]
        · simp [List.filter_cons, ih, h]

theorem filter_sortByScoreDesc (x : ℚ) (l : List Profile) :
    (sortByScoreDesc l).filter (fun q => decide (q.search_score = x))
      = l.filter (fun q => decide (q.search_score = x)) := by
  induction l with
  | nil => rfl
  | cons p rest ih =>
      rw [show sortByScoreDesc (p :: rest) = insertByScore p (sortByScoreDesc rest)
            from rfl,
          filter_insertByScore]
      by_cases h : p.search_score = x <;> simp [List.filter_cons, h, ih]

/-! ### Filtering lemmas -/

theorem applyFilters_sublist (f : Filters) (l : List Profile) :
    ∀ m, applyFilters f l = .ok m → m.Sublist l := by
  induction l with
  | nil =>
      intro m h
      simp only [applyFilters, Except.ok.injEq] at h
      rw [← h]
  | cons p rest ih =>
      intro m h
      rw [applyFilters] at h
      cases hm : matchesFilters p f with
      | error e => rw [hm] at h; cases h
      | ok b =>
          rw [hm] at h
          cases b with
          | false => exact (ih m h).cons p
          | true =>
              cases hr : applyFilters f rest with
              | error e => rw [hr] at h; cases h
              | ok l' =>
                  rw [hr] at h
                  injection h with h
                  rw [← h]
                  exact (ih l' hr).cons₂ p

/-! ### The fused dict binds every key to a profile carrying that key,
with no duplicate keys -/

theorem dictSet_inv (d : List (String × Profile)) (key : String) (v : Profile)
    (hk : v.candidate_id = key)
    (h1 : (d.map Prod.fst).Nodup)
    (h2 : ∀ kv ∈ d, (Prod.snd kv).candidate_id = Prod.fst kv) :
    ((dictSet d key v).map Prod.fst).Nodup
      ∧ ∀ kv ∈ dictSet d key v, (Prod.snd kv).candidate_id = Prod.fst kv := by
  refine ⟨nodup_fst_dictSet d key v h1, ?_⟩
  intro kv hkv
  rcases mem_dictSet d key v kv hkv with h' | h'
  · exact h2 kv h'
  · rw [h']; exact hk

theorem foldl_dictSet_inv (l : List Profile) (d : List (String × Profile))
    (h1 : (d.map Prod.fst).Nodup)
    (h2 : ∀ kv ∈ d, (Prod.snd kv).candidate_id = Prod.fst kv) :
    (((l.foldl (fun d p => dictSet d p.candidate_id p) d).map Prod.fst).Nodup)
      ∧ ∀ kv ∈ l.foldl (fun d p => dictSet d p.candidate_id p) d,
          (Prod.snd kv).candidate_id = Prod.fst kv := by
  induction l generalizing d with
  | nil => exact ⟨h1, h2⟩
  | cons q rest ih =>
      rw [List.foldl_cons]
      have h := dictSet_inv d q.candidate_id q rfl h1 h2
      exact ih _ h.1 h.2

theorem fuseKeywordHit_inv (d : List (String × Profile)) (p : Profile)
    (h1 : (d.map Prod.fst).Nodup)
    (h2 : ∀ kv ∈ d, (Prod.snd kv).candidate_id = Prod.fst kv) :
    (((fuseKeywordHit d p).map Prod.fst).Nodup)
      ∧ ∀ kv ∈ fuseKeywordHit d p, (Prod.snd kv).candidate_id = Prod.fst kv := by
  unfold fuseKeywordHit
  cases hl : dictLookup d p.candidate_id with
  | some old =>
      have hold : old.candidate_id = p.candidate_id :=
        h2 _ (dictLookup_mem d _ old hl)
      exact dictSet_inv d p.candidate_id _ hold h1 h2
  | none => exact dictSet_inv d p.candidate_id p rfl h1 h2

theorem foldl_fuseKeywordHit_inv (l : List Profile) (d : List (String × Profile))
    (h1 : (d.map Prod.fst).Nodup)
    (h2 : ∀ kv ∈ d, (Prod.snd kv).candidate_id = Prod.fst kv) :
    (((l.foldl fuseKeywordHit d).map Prod.fst).Nodup)
      ∧ ∀ kv ∈ l.foldl fuseKeywordHit d,
          (Prod.snd kv).candidate_id = Prod.fst kv := by
  induction l generalizing d with
  | nil => exact ⟨h1, h2⟩
  | cons q rest ih =>
      rw [List.foldl_cons]
      have h := fuseKeywordHit_inv d q h1 h2
      exact ih _ h.1 h.2

theorem nodup_cids_fuse (sem kw : List Profile) :
    (((fuse sem kw).map Prod.snd).map Profile.candidate_id).Nodup := by
  have hsem := foldl_dictSet_inv sem [] (by simp) (by simp)
  have h := foldl_fuseKeywordHit_inv kw (semDict sem) hsem.1 hsem.2
  have heq : ((fuse sem kw).map Prod.snd).map Profile.candidate_id
      = (fuse sem kw).map Prod.fst := by
    rw [List.map_map]
    exact List.map_congr_left (fun kv hkv => h.2 kv hkv)
  rw [heq]
  exact h.1

/-! ### Build-script lemmas -/

theorem collectEmbeddings_eq (files : List (String × Vec)) :
    collectEmbeddings files = (files.map Prod.snd, files.map Prod.fst) := by
  induction files with
  | nil => rfl
  | cons f rest ih => simp [collectEmbeddings, ih]

/-! ### Claim C1 -/

/-- Claim C1, counterexample: the fused score of a candidate present in
both signals is not the vector score plus a fixed bonus.  In one call the
candidate `a` (vector score 0.1) fuses to 0.7 while `b` (vector score
0.9) fuses to 0.9, so no single fixed bonus accounts for both. -/
theorem C1_counterexample :
    ((dictLookup (fuse
        [{ candidate_id := "a", search_score := 1/10 },
         { candidate_id := "b", search_score := 9/10 }]
        [{ candidate_id := "a", search_score := 1/2 },
         { candidate_id := "b", search_score := 1/2 }]) "a").map Profile.search_score
      = some (7/10)
     ∧ (dictLookup (fuse
        [{ candidate_id := "a", search_score := 1/10 },
         { candidate_id := "b", search_score := 9/10 }]
        [{ candidate_id := "a", search_score := 1/2 },
         { candidate_id := "b", search_score := 1/2 }]) "b").map Profile.search_score
      = some (9/10))
    ∧ ¬ ∃ bonus : ℚ, (7/10 : ℚ) = 1/10 + bonus ∧ (9/10 : ℚ) = 9/10 + bonus := by
  refine ⟨⟨?_, ?_⟩, ?_⟩
  · norm_num [fuse, semDict, fuseKeywordHit, dictLookup, dictSet, max_def,
              show ("a" : String) ≠ "b" from by decide,
              show ("b" : String) ≠ "a" from by decide]
  · norm_num [fuse, semDict, fuseKeywordHit, dictLookup, dictSet, max_def,
              show ("a" : String) ≠ "b" from by decide,
              show ("b" : String) ≠ "a" from by decide]
  rintro ⟨b, h1, h2⟩
  have hb : b = 0 := by linarith
  rw [hb] at h1
  norm_num at h1

/-- Claim C1, amended: for a candidate present in both signals the fused
score is `max(vector score, 0.5 + 0.2)` — the vector score raised to the
floor 0.7 — not the vector score plus a bonus; a candidate only in the
keyword results (whose ids are distinct) keeps the fixed base score 0.5. -/
theorem C1_amended (sem kw : List Profile) (cid : String)
    (hs : ∀ p ∈ kw, p.search_score = 1/2) :
    (∀ old, dictLookup (semDict sem) cid = some old →
        (dictLookup (fuse sem kw) cid).map Profile.search_score
          = some (if cid ∈ kw.map Profile.candidate_id
                  then max old.search_score (1/2 + 1/5)
                  else old.search_score))
    ∧ ((kw.map Profile.candidate_id).Nodup →
        dictLookup (semDict sem) cid = none →
        cid ∈ kw.map Profile.candidate_id →
        (dictLookup (fuse sem kw) cid).map Profile.search_score = some (1/2)) := by
  constructor
  · intro old hold
    unfold fuse
    rw [dictLookup_foldl_fuse_some kw (semDict sem) cid old hs hold]
    by_cases hm : cid ∈ kw.map Profile.candidate_id
    · simp [hm]
    · simp [hm]
  · intro hnd hnone hmem
    exact dictLookup_foldl_fuse_new kw (semDict sem) cid hs hnd hnone hmem

/-- Claim C1, witness for the amended theorem at a concrete call: `a` is
in both signals with vector score 0.1 and fuses to `max 0.1 0.7`; `c` is
keyword-only and fuses to 0.5. -/
theorem C1_amended_witness :
    (dictLookup (fuse
        [{ candidate_id := "a", search_score := 1/10 }]
        [{ candidate_id := "a", search_score := 1/2 },
         { candidate_id := "c", search_score := 1/2 }]) "a").map Profile.search_score
      = some (if "a" ∈ ([{ candidate_id := "a", search_score := 1/2 },
                         { candidate_id := "c", search_score := 1/2 }] :
                        List Profile).map Profile.candidate_id
              then max ((1:ℚ)/10) (1/2 + 1/5)
              else (1:ℚ)/10)
    ∧ (dictLookup (fuse
        [{ candidate_id := "a", search_score := 1/10 }]
        [{ candidate_id := "a", search_score := 1/2 },
         { candidate_id := "c", search_score := 1/2 }]) "c").map Profile.search_score
      = some (1/2) := by
  constructor
  · exact (C1_amended _ _ "a" (by intro p hp; fin_cases hp <;> rfl)).1
      { candidate_id := "a", search_score := 1/10 } rfl
  · exact (C1_amended _ _ "c" (by intro p hp; fin_cases hp <;> rfl)).2
      (by decide) rfl (by decide)

/-! ### Claim C2 -/

/-- Claim C2, counterexample: a candidate found by both signals does not
always outrank one found by a single signal: here `a` is in both signals
(vector score 0.1, fused 0.7) while `b` is vector-only with score 0.9,
and the call ranks `b` above `a`. -/
theorem C2_counterexample :
    ((dictLookup (fuse
        [{ candidate_id := "a", search_score := 1/10 },
         { candidate_id := "b", search_score := 9/10 }]
        [{ candidate_id := "a", search_score := 1/2 }]) "a").map Profile.search_score
      = some (7/10)
     ∧ (dictLookup (fuse
        [{ candidate_id := "a", search_score := 1/10 },
         { candidate_id := "b", search_score := 9/10 }]
        [{ candidate_id := "a", search_score := 1/2 }]) "b").map Profile.search_score
      = some (9/10))
    ∧ (sortByScoreDesc ((fuse
        [{ candidate_id := "a", search_score := 1/10 },
         { candidate_id := "b", search_score := 9/10 }]
        [{ candidate_id := "a", search_score := 1/2 }]).map Prod.snd)).map
          Profile.candidate_id = ["b", "a"]
    ∧ ¬ ((7 : ℚ)/10 > 9/10) := by
  refine ⟨⟨?_, ?_⟩, ?_, ?_⟩
  · norm_num [fuse, semDict, fuseKeywordHit, dictLookup, dictSet, max_def,
              show ("a" : String) ≠ "b" from by decide,
              show ("b" : String) ≠ "a" from by decide]
  · norm_num [fuse, semDict, fuseKeywordHit, dictLookup, dictSet, max_def,
              show ("a" : String) ≠ "b" from by decide,
              show ("b" : String) ≠ "a" from by decide]
  · norm_num [fuse, semDict, fuseKeywordHit, dictLookup, dictSet,
              sortByScoreDesc, insertByScore, max_def,
              show ("a" : String) ≠ "b" from by decide,
              show ("b" : String) ≠ "a" from by decide]
  · norm_num

/-- Claim C2, amended: the intended dominance holds against keyword-only
candidates: whatever the vector scores, a candidate present in both
signals (fused score at least 0.7) scores strictly above a candidate
present only in the keyword results (fused score 0.5); only a vector-only
candidate with a higher vector score can outrank it. -/
theorem C2_amended (sem kw : List Profile) (cidB cidK : String) (old : Profile)
    (hs : ∀ p ∈ kw, p.search_score = 1/2)
    (hnd : (kw.map Profile.candidate_id).Nodup)
    (hB : dictLookup (semDict sem) cidB = some old)
    (hBk : cidB ∈ kw.map Profile.candidate_id)
    (hK : dictLookup (semDict sem) cidK = none)
    (hKk : cidK ∈ kw.map Profile.candidate_id) :
    ∀ a b, dictLookup (fuse sem kw) cidB = some a →
      dictLookup (fuse sem kw) cidK = some b →
      b.search_score < a.search_score := by
  intro a b ha hb
  have h1 : (dictLookup (fuse sem kw) cidB).map Profile.search_score
      = some (max old.search_score (1/2 + 1/5)) := by
    unfold fuse
    rw [dictLookup_foldl_fuse_some kw (semDict sem) cidB old hs hB, if_pos hBk]
    rfl
  have h2 : (dictLookup (fuse sem kw) cidK).map Profile.search_score
      = some (1/2) := by
    exact dictLookup_foldl_fuse_new kw (semDict sem) cidK hs hnd hK hKk
  rw [ha] at h1
  rw [hb] at h2
  simp only [Option.map_some', Option.some.injEq] at h1 h2
  rw [h1, h2]
  have hmax : (1/2 : ℚ) + 1/5 ≤ max old.search_score (1/2 + 1/5) := le_max_right _ _
  linarith

/-- Claim C2, witness for the amended theorem at a concrete call: `a` in
both signals with vector score 0.1, `c` keyword-only; `c` scores 0.5,
strictly below the fused `max(0.1, 0.7)` of `a`. -/
theorem C2_amended_witness :
    ({ candidate_id := "c", search_score := 1/2 } : Profile).search_score
      < ({ candidate_id := "a",
           search_score := max ((1:ℚ)/10) (1/2 + 1/5) } : Profile).search_score :=
  C2_amended [{ candidate_id := "a", search_score := 1/10 }]
    [{ candidate_id := "a", search_score := 1/2 },
     { candidate_id := "c", search_score := 1/2 }] "a" "c"
    { candidate_id := "a", search_score := 1/10 }
    (by intro p hp; fin_cases hp <;> rfl) (by decide) rfl (by decide) rfl (by decide)
    _ _ rfl rfl

/-! ### Claim C5 -/

/-- Claim C5, counterexample: the two fusion orders are not
ranking-equivalent: with `a` in both signals (vector score 0.4) and `b`
vector-only (score 0.65), keyword-into-vector fusion ranks `a` (0.7)
above `b` (0.65), while the opposite order gives `a` the score
`max(0.5, 0.4 + 0.2) = 0.6` and ranks `b` first. -/
theorem C5_counterexample :
    (sortByScoreDesc ((fuse
        [{ candidate_id := "a", search_score := 2/5 },
         { candidate_id := "b", search_score := 13/20 }]
        [{ candidate_id := "a", search_score := 1/2 }]).map Prod.snd)).map
          Profile.candidate_id = ["a", "b"]
    ∧ (sortByScoreDesc ((fuseSwapped
        [{ candidate_id := "a", search_score := 2/5 },
         { candidate_id := "b", search_score := 13/20 }]
        [{ candidate_id := "a", search_score := 1/2 }]).map Prod.snd)).map
          Profile.candidate_id = ["b", "a"]
    ∧ (["a", "b"] : List String) ≠ ["b", "a"] := by
  refine ⟨?_, ?_, by decide⟩
  · norm_num [fuse, semDict, fuseKeywordHit, dictLookup, dictSet,
              sortByScoreDesc, insertByScore, max_def,
              show ("a" : String) ≠ "b" from by decide,
              show ("b" : String) ≠ "a" from by decide]
  · norm_num [fuseSwapped, fuseKeywordHit, dictLookup, dictSet,
              sortByScoreDesc, insertByScore, max_def,
              show ("a" : String) ≠ "b" from by decide,
              show ("b" : String) ≠ "a" from by decide]

/-- Claim C5, amended: fusion order does affect scores and tie order, but
the set of fused candidates is order-independent: a candidate id is bound
after keyword-into-vector fusion exactly when it is bound after
vector-into-keyword fusion. -/
theorem C5_amended (sem kw : List Profile) (cid : String) :
    (dictLookup (fuse sem kw) cid).isSome
      = (dictLookup (fuseSwapped sem kw) cid).isSome := by
  have hL : (dictLookup (fuse sem kw) cid).isSome = true
      ↔ (cid ∈ sem.map Profile.candidate_id ∨ cid ∈ kw.map Profile.candidate_id) := by
    unfold fuse semDict
    rw [dictLookup_foldl_fuse_isSome, dictLookup_foldl_dictSet_isSome]
    simp [dictLookup]
  have hR : (dictLookup (fuseSwapped sem kw) cid).isSome = true
      ↔ (cid ∈ kw.map Profile.candidate_id ∨ cid ∈ sem.map Profile.candidate_id) := by
    unfold fuseSwapped
    rw [dictLookup_foldl_fuse_isSome, dictLookup_foldl_dictSet_isSome]
    simp [dictLookup]
  by_cases hm : cid ∈ sem.map Profile.candidate_id ∨ cid ∈ kw.map Profile.candidate_id
  · rw [hL.mpr hm, hR.mpr (Or.symm hm)]
  · have h1 : (dictLookup (fuse sem kw) cid).isSome = false := by
      cases h : (dictLookup (fuse sem kw) cid).isSome
      · rfl
      · exact absurd (hL.mp h) hm
    have h2 : (dictLookup (fuseSwapped sem kw) cid).isSome = false := by
      cases h : (dictLookup (fuseSwapped sem kw) cid).isSome
      · rfl
      · exact absurd (Or.symm (hR.mp h)) hm
    rw [h1, h2]

/-! ### Claim C7 -/

/-- Claim C7, counterexample: a filter key with no corresponding profile
field does not fail open: a profile with no `role_category` field is
excluded by a `role_category` filter. -/
theorem C7_counterexample :
    matchesFilters { candidate_id := "x" } { role_category := some "Engineer" }
      = .ok false := rfl

/-- Claim C7, amended: a filter key whose profile field is missing fails
closed for `role_category`, for `work_authorization`, and for a positive
`min_experience` bound (missing experience reads as 0); only a
non-negative `max_experience` bound fails open on a missing field. -/
theorem C7_amended (p : Profile) :
    (∀ rc : String, p.role_category = none →
        matchesFilters p { role_category := some rc } = .ok false)
    ∧ (∀ wa : String, p.work_authorization = none →
        matchesFilters p { work_authorization := some wa } = .ok false)
    ∧ (∀ q : ℚ, p.experience_years = none → 0 < q →
        matchesFilters p { min_experience := some (.num q) } = .ok false)
    ∧ (∀ q : ℚ, p.experience_years = none → 0 ≤ q →
        matchesFilters p { max_experience := some (.num q) } = .ok true) := by
  refine ⟨?_, ?_, ?_, ?_⟩
  · intro rc h
    simp [matchesFilters, h]
  · intro wa h
    simp [matchesFilters, checkMinExp, checkMaxExp, checkLocation, checkWorkAuth, h]
  · intro q hq h0
    simp [matchesFilters, checkMinExp, hq, h0]
  · intro q hq h0
    simp [matchesFilters, checkMinExp, checkMaxExp, checkLocation, checkWorkAuth,
          hq, not_lt.mpr h0]

/-- Claim C7, witness for the amended theorem on a profile with only a
candidate_id: every single-key filter excludes it except a non-negative
`max_experience` bound. -/
theorem C7_amended_witness :
    matchesFilters { candidate_id := "x" } { role_category := some "QA" } = .ok false
    ∧ matchesFilters { candidate_id := "x" } { work_authorization := some "H1B" }
        = .ok false
    ∧ matchesFilters { candidate_id := "x" } { min_experience := some (.num 3) }
        = .ok false
    ∧ matchesFilters { candidate_id := "x" } { max_experience := some (.num 3) }
        = .ok true := by
  refine ⟨(C7_amended _).1 "QA" rfl,
          (C7_amended _).2.1 "H1B" rfl,
          (C7_amended _).2.2.1 3 rfl (by norm_num),
          (C7_amended _).2.2.2 3 rfl (by norm_num)⟩

/-! ### Claim C9 -/

/-- Claim C9, counterexample: a rebuild does not write under temporary
names and rename: the faiss build writes both artifacts directly at their
live paths and performs no rename, and the keyword build connects to the
live database and performs no rename. -/
theorem C9_counterexample :
    FsOp.writeFile "data/index/faiss.index" ∈ buildFaissTrace [("c1", [1])]
    ∧ FsOp.writeFile "data/index/meta.json" ∈ buildFaissTrace [("c1", [1])]
    ∧ (buildFaissTrace [("c1", [1])]).all (fun op => !op.isRename) = true
    ∧ FsOp.sqliteConnect "data/index/meta.sqlite" ∈ buildTextIndexTrace ["a.json"]
    ∧ (buildTextIndexTrace ["a.json"]).all (fun op => !op.isRename) = true := by
  refine ⟨by decide, by decide, by decide, by decide, by decide⟩

/-- Claim C9, amended: for every corpus, both rebuild scripts operate on
the live artifact paths directly — the faiss build only ever writes
`data/index/faiss.index` and `data/index/meta.json` at their live paths,
the keyword build connects to the live `data/index/meta.sqlite` and drops
and recreates its table in place — and neither performs any rename. -/
theorem C9_amended (files : List (String × Vec)) (jsonFiles : List String) :
    (∀ op ∈ buildFaissTrace files, op.isRename = false
        ∧ (op = FsOp.writeFile "data/index/faiss.index"
           ∨ op = FsOp.writeFile "data/index/meta.json"))
    ∧ (∀ op ∈ buildTextIndexTrace jsonFiles, op.isRename = false)
    ∧ (files ≠ [] →
        FsOp.writeFile "data/index/faiss.index" ∈ buildFaissTrace files
        ∧ FsOp.writeFile "data/index/meta.json" ∈ buildFaissTrace files)
    ∧ FsOp.sqliteConnect "data/index/meta.sqlite" ∈ buildTextIndexTrace jsonFiles
    ∧ FsOp.dropTable "profiles_fts" ∈ buildTextIndexTrace jsonFiles := by
  refine ⟨?_, ?_, ?_, ?_, ?_⟩
  · intro op hop
    by_cases hf : files.isEmpty
    · rw [buildFaissTrace, if_pos hf] at hop
      simp at hop
    · rw [buildFaissTrace, if_neg hf] at hop
      rcases List.mem_cons.mp hop with h | h
      · subst h; exact ⟨rfl, Or.inl rfl⟩
      · rw [List.mem_singleton] at h
        subst h; exact ⟨rfl, Or.inr rfl⟩
  · intro op hop
    unfold buildTextIndexTrace at hop
    rcases List.mem_append.mp hop with h | h
    · simp only [List.mem_cons] at h
      rcases h with h | h | h | h
      · subst h; rfl
      · subst h; rfl
      · subst h; rfl
      · exact absurd h (List.not_mem_nil op)
    · by_cases hj : jsonFiles.isEmpty
      · rw [if_pos hj] at h
        simp at h
      · rw [if_neg hj] at h
        rcases List.mem_append.mp h with h' | h'
        · rcases List.mem_map.mp h' with ⟨x, _, hop'⟩
          rw [← hop']
          rfl
        · rw [List.mem_singleton] at h'
          subst h'; rfl
  · intro hne
    have hf : ¬ files.isEmpty := by simpa [List.isEmpty_iff] using hne
    rw [buildFaissTrace, if_neg hf]
    exact ⟨List.mem_cons_self _ _, by simp⟩
  · unfold buildTextIndexTrace
    exact List.mem_append.mpr (Or.inl (List.mem_cons_self _ _))
  · unfold buildTextIndexTrace
    exact List.mem_append.mpr (Or.inl (by simp))

/-- Claim C9, witness for the amended theorem at a one-candidate corpus. -/
theorem C9_amended_witness :
    ((FsOp.writeFile "data/index/faiss.index").isRename = false)
    ∧ FsOp.writeFile "data/index/faiss.index" ∈ buildFaissTrace [("c1", [1])]
    ∧ FsOp.writeFile "data/index/meta.json" ∈ buildFaissTrace [("c1", [1])]
    ∧ FsOp.sqliteConnect "data/index/meta.sqlite" ∈ buildTextIndexTrace ["a.json"] := by
  have h := C9_amended [("c1", [1])] ["a.json"]
  obtain ⟨hmem1, hmem2⟩ := h.2.2.1 (by decide)
  exact ⟨(h.1 _ hmem1).1, hmem1, hmem2, h.2.2.2.1⟩

/-! ### Claim C6 -/

/-- Claim C6, counterexample: a wrong-shaped filter value (a string
`min_experience` bound) is not rejected with a MalformedFilter error at
the retriever boundary: with no candidates the call succeeds with an
empty list, and with a keyword hit it raises the comparison TypeError
from inside the filtering pass, after both indexes were consulted. -/
theorem C6_counterexample :
    search ⟨none, none, none, fun _ => none, fun v => v⟩ "python" 10
        (some { min_experience := some (.str "five") }) = .ok []
    ∧ search ⟨none, none, some ⟨fun _ => ["c1"]⟩,
          (fun cid => if cid = "c1" then some { candidate_id := "c1" } else none),
          fun v => v⟩ "python" 10
        (some { min_experience := some (.str "five") })
      = .error (.typeError "unsupported comparison between int and str") := by
  exact ⟨rfl, rfl⟩

/-- Claim C6, amended: no filter validation happens at the retriever
boundary: a string experience bound raises the comparison TypeError
inside the per-profile filtering pass (for any profile reaching that
check), and when both signals return nothing the malformed filter is
silently ignored and `search` succeeds with the empty list. -/
theorem C6_amended (f : Filters) (s : String)
    (hrole : f.role_category = none)
    (hmin : f.min_experience = some (.str s)) :
    (∀ p : Profile,
        matchesFilters p f
          = .error (.typeError "unsupported comparison between int and str"))
    ∧ (∀ st q k, semanticSearch st q (k*2) = [] → keywordSearch st q k = [] →
        search st q k (some f) = .ok []) := by
  constructor
  · intro p
    simp [matchesFilters, checkMinExp, hrole, hmin]
  · intro st q k hsem hkw
    unfold search
    by_cases hq : q = ""
    · rw [if_pos hq]
    · rw [if_neg hq, hsem, hkw]
      simp [searchCombine, fuse, semDict, sortByScoreDesc, applyFilters]

/-- Claim C6, witness for the amended theorem: the TypeError surfaces on
a concrete profile, and a concrete call with empty signals succeeds
despite the malformed filter. -/
theorem C6_amended_witness :
    matchesFilters { candidate_id := "c1" } { min_experience := some (.str "five") }
      = .error (.typeError "unsupported comparison between int and str")
    ∧ search ⟨none, none, none, fun _ => none, fun v => v⟩ "python" 3
        (some { min_experience := some (.str "five") }) = .ok [] := by
  constructor
  · exact (C6_amended { min_experience := some (.str "five") } "five" rfl rfl).1 _
  · exact (C6_amended { min_experience := some (.str "five") } "five" rfl rfl).2
      _ "python" 3 rfl rfl

/-! ### Claim C4 -/

/-- Claim C10: whenever `search` returns a list, its candidate ids are
pairwise distinct, because fusion keys the combined mapping by
candidate_id and sorting, filtering and truncation preserve
distinctness. -/
theorem C10_distinct_ids (st : RetrieverState) (q : String) (k : Nat)
    (fl : Option Filters) (l : List Profile)
    (h : search st q k fl = .ok l) :
    (l.map Profile.candidate_id).Nodup := by
  unfold search at h
  by_cases hq : q = ""
  · rw [if_pos hq] at h
    injection h with h
    rw [← h]
    simp
  · rw [if_neg hq] at h
    have hnodup0 := nodup_cids_fuse (semanticSearch st q (k*2)) (keywordSearch st q k)
    have hperm := perm_sortByScoreDesc
      ((fuse (semanticSearch st q (k*2)) (keywordSearch st q k)).map Prod.snd)
    have hsorted_nodup :
        ((sortByScoreDesc ((fuse (semanticSearch st q (k*2))
            (keywordSearch st q k)).map Prod.snd)).map Profile.candidate_id).Nodup :=
      ((hperm.map Profile.candidate_id).nodup_iff).mpr hnodup0
    cases fl with
    | none =>
        simp only [searchCombine] at h
        injection h with h
        rw [← h]
        exact List.Nodup.sublist ((List.take_sublist _ _).map _) hsorted_nodup
    | some f =>
        simp only [searchCombine] at h
        cases hr : applyFilters f (sortByScoreDesc
            ((fuse (semanticSearch st q (k*2))
              (keywordSearch st q k)).map Prod.snd)) with
        | error e =>
            rw [hr] at h
            simp at h
        | ok m =>
            rw [hr] at h
            injection h with h
            rw [← h]
            have hm := applyFilters_sublist f _ m hr
            exact List.Nodup.sublist
              (((List.take_sublist k m).trans hm).map _) hsorted_nodup

/-- Claim C10, witness at a concrete call returning one candidate. -/
theorem C10_distinct_ids_witness :
    (([{ candidate_id := "c1", search_score := 1/2 }] : List Profile).map
        Profile.candidate_id).Nodup :=
  C10_distinct_ids ⟨none, none, some ⟨fun _ => ["c1"]⟩,
      (fun cid => if cid = "c1" then some { candidate_id := "c1" } else none),
      fun v => v⟩ "java" 4 none
    [{ candidate_id := "c1", search_score := 1/2 }] rfl

/-! ### Claim C3 -/

/-- Claim C3: for a non-empty query, whenever `search` returns a list it
is the first `k` of the filtered stable descending sort of the fused
candidates: the returned list has at most `k` profiles and is sorted by
score descending, and there is a sorted permutation `s` of the fused
candidates preserving the relative order of equal scores (the stable
sort), from which the returned list is obtained by filtering (when
filters are given) and taking the first `k`. -/
theorem C3_ranking (st : RetrieverState) (q : String) (k : Nat)
    (fl : Option Filters) (l : List Profile)
    (hk : 1 ≤ k) (h : search st q k fl = .ok l) :
    l.length ≤ k
    ∧ l.Sorted ScoreGE
    ∧ (q ≠ "" →
        ∃ s m : List Profile,
          List.Perm s
            ((fuse (semanticSearch st q (k*2)) (keywordSearch st q k)).map Prod.snd)
          ∧ s.Sorted ScoreGE
          ∧ (∀ x : ℚ, s.filter (fun p => decide (p.search_score = x))
              = ((fuse (semanticSearch st q (k*2))
                  (keywordSearch st q k)).map Prod.snd).filter
                  (fun p => decide (p.search_score = x)))
          ∧ ((fl = none ∧ m = s) ∨ (∃ f, fl = some f ∧ applyFilters f s = .ok m))
          ∧ l = m.take k) := by
  unfold search at h
  by_cases hq : q = ""
  · rw [if_pos hq] at h
    injection h with h
    refine ⟨?_, ?_, ?_⟩
    · rw [← h]; simp
    · rw [← h]; simp [List.Sorted]
    · intro hq'
      exact absurd hq hq'
  · rw [if_neg hq] at h
    have hs_sorted := sorted_sortByScoreDesc
      ((fuse (semanticSearch st q (k*2)) (keywordSearch st q k)).map Prod.snd)
    have hs_perm := perm_sortByScoreDesc
      ((fuse (semanticSearch st q (k*2)) (keywordSearch st q k)).map Prod.snd)
    have hs_filter := fun x => filter_sortByScoreDesc x
      ((fuse (semanticSearch st q (k*2)) (keywordSearch st q k)).map Prod.snd)
    cases fl with
    | none =>
        simp only [searchCombine] at h
        injection h with h
        refine ⟨?_, ?_, ?_⟩
        · rw [← h, List.length_take]
          exact min_le_left _ _
        · rw [← h]
          exact List.Pairwise.sublist (List.take_sublist _ _) hs_sorted
        · intro _
          exact ⟨sortByScoreDesc ((fuse (semanticSearch st q (k*2))
              (keywordSearch st q k)).map Prod.snd),
            sortByScoreDesc ((fuse (semanticSearch st q (k*2))
              (keywordSearch st q k)).map Prod.snd),
            hs_perm, hs_sorted, hs_filter, Or.inl ⟨rfl, rfl⟩, h.symm⟩
    | some f =>
        simp only [searchCombine] at h
        cases hr : applyFilters f (sortByScoreDesc
            ((fuse (semanticSearch st q (k*2))
              (keywordSearch st q k)).map Prod.snd)) with
        | error e =>
            rw [hr] at h
            simp at h
        | ok m =>
            rw [hr] at h
            injection h with h
            have hsub := applyFilters_sublist f _ m hr
            refine ⟨?_, ?_, ?_⟩
            · rw [← h, List.length_take]
              exact min_le_left _ _
            · rw [← h]
              exact List.Pairwise.sublist
                ((List.take_sublist _ _).trans hsub) hs_sorted
            · intro _
              exact ⟨sortByScoreDesc ((fuse (semanticSearch st q (k*2))
                  (keywordSearch st q k)).map Prod.snd),
                m, hs_perm, hs_sorted, hs_filter, Or.inr ⟨f, rfl, hr⟩, h.symm⟩

/-- Claim C3, witness at a concrete call returning one candidate. -/
theorem C3_ranking_witness :
    ([{ candidate_id := "c1", search_score := 1/2 }] : List Profile).length ≤ 2
    ∧ ([{ candidate_id := "c1", search_score := 1/2 }] : List Profile).Sorted
        ScoreGE := by
  have h := C3_ranking ⟨none, none, some ⟨fun _ => ["c1"]⟩,
      (fun cid => if cid = "c1" then some { candidate_id := "c1" } else none),
      fun v => v⟩ "rust" 2 none
      [{ candidate_id := "c1", search_score := 1/2 }] (by norm_num) rfl
  exact ⟨h.1, h.2.1⟩

/-! ### Claim C8 -/

/-- Claim C8: rebuilding the vector index preserves the 1:1 row-to-id
alignment: the index rows and the persisted candidate_ids have the length
of the corpus, row `i` is the (normalized) embedding of the file at
position `i` whose stem is `candidate_ids[i]`; and every semantic-search
result is the profile-store record of the candidate id at the hit row,
with only its `search_score` replaced. -/
theorem C8_alignment (normalizeRow : Vec → Vec) (files : List (String × Vec)) :
    ((buildFaissIndex normalizeRow files).1.length = files.length
     ∧ (buildFaissIndex normalizeRow files).2.length = files.length)
    ∧ (∀ i (h3 : i < files.length),
        (buildFaissIndex normalizeRow files).1[i]? = some (normalizeRow files[i].2)
        ∧ (buildFaissIndex normalizeRow files).2[i]? = some files[i].1)
    ∧ (∀ (st : RetrieverState) (idx : FaissIndex) (cids : List String)
          (q : String) (k : Nat) (p : Profile),
        st.faiss = some (idx, cids) → p ∈ semanticSearch st q k →
        ∃ i, ∃ h : i < cids.length, ∃ p0 : Profile,
          st.profiles (cids.get ⟨i, h⟩) = some p0
          ∧ p = { p0 with search_score := p.search_score }) := by
  have hbuild : buildFaissIndex normalizeRow files
      = (files.map (fun f => normalizeRow f.2), files.map Prod.fst) := by
    unfold buildFaissIndex
    rw [collectEmbeddings_eq]
    simp [List.map_map]
  refine ⟨?_, ?_, ?_⟩
  · rw [hbuild]
    constructor <;> simp
  · intro i h3
    rw [hbuild]
    constructor
    · rw [List.getElem?_map, List.getElem?_eq_getElem h3]
      rfl
    · rw [List.getElem?_map, List.getElem?_eq_getElem h3]
      rfl
  · intro st idx cids q k p hfaiss hp
    unfold semanticSearch at hp
    rw [hfaiss] at hp
    cases hv : st.vectorizer with
    | none =>
        rw [hv] at hp
        simp at hp
    | some vz =>
        rw [hv] at hp
        simp only [List.mem_filterMap] at hp
        obtain ⟨a, _, hfa⟩ := hp
        by_cases hlt : a.2 < cids.length
        · rw [dif_pos hlt] at hfa
          rw [Option.map_eq_some'] at hfa
          obtain ⟨p0, hp0, hpeq⟩ := hfa
          refine ⟨a.2, hlt, p0, hp0, ?_⟩
          rw [← hpeq]
        · rw [dif_neg hlt] at hfa
          cases hfa

/-- Claim C8, witness at a one-candidate corpus and a one-hit search. -/
theorem C8_alignment_witness :
    (buildFaissIndex (fun v => v) [("c1", [1])]).1[0]?
        = some ((fun v => v) ([1] : Vec))
    ∧ (buildFaissIndex (fun v => v) [("c1", [1])]).2[0]? = some "c1"
    ∧ ∃ i, ∃ h : i < (["c1"] : List String).length, ∃ p0 : Profile,
        (⟨some (⟨fun _ _ => [(1/2, 0)]⟩, ["c1"]), some ⟨fun _ => [1]⟩, none,
          (fun cid => if cid = "c1" then some { candidate_id := "c1" } else none),
          fun v => v⟩ : RetrieverState).profiles ((["c1"] : List String).get ⟨i, h⟩)
          = some p0
        ∧ ({ candidate_id := "c1", search_score := 1/2 } : Profile)
          = { p0 with search_score := (1:ℚ)/2 } := by
  have hpart := (C8_alignment (fun v => v) [("c1", [1])]).2.1 0 (by decide)
  refine ⟨hpart.1, hpart.2, ?_⟩
  exact (C8_alignment (fun v => v) [("c1", [1])]).2.2
    ⟨some (⟨fun _ _ => [(1/2, 0)]⟩, ["c1"]), some ⟨fun _ => [1]⟩, none,
      (fun cid => if cid = "c1" then some { candidate_id := "c1" } else none),
      fun v => v⟩
    ⟨fun _ _ => [(1/2, 0)]⟩ ["c1"] "go" 1
    { candidate_id := "c1", search_score := 1/2 }
    rfl (List.mem_cons_self _ _)

end RecruitAuto
